import Mathlib

/-!
Verification of the DXF composition service (planodegravacaoAPI).

Modelling conventions for the shallow embedding:

* Python floats are modelled as rationals (`ℚ`); the program only adds,
  subtracts, negates, compares and takes min/max of coordinates, so the
  embedding is exact on these operations.
* Python strings (SKUs, plan names, dictionary keys) are modelled as
  `List Char`; `str.split('-')` is modelled by `splitDash` below, which has
  exactly Python's semantics (no merging of separators, `[''] ` on the empty
  string); Python's `sorted` on strings is the lexicographic order on
  `List Char` realised by the stable `List.insertionSort`.
* An ezdxf DXF entity is abstracted by `Ent`: whether it carries a `dxf.insert`
  attribute, the insert point, and its own bounding box (`none` when
  `e.bbox()` raises or is empty).  `Ent.translate` shifts the insert point and
  the box, exactly as `entity.translate(dx, dy, 0)` does.
* The nested `defaultdict` `organized_dxfs[color][format][size][hole]` of
  `dxf_layout_engine.generate_single_plan_layout_data` is modelled as nested
  association lists whose keys appear in ascending order, matching the
  `sorted(....keys())` iteration in the source.
* Stage 1 of the engine (Google Drive download) is I/O; the layout model takes
  the already organised fragments as input.  The loaded plan-info and
  separator-bar drawings are `Option Frag` (`none` when the corresponding
  entity list is empty, matching the `if plano_entities:` / `if barra_entities:`
  truthiness tests in the source).
-/

namespace Plano

/-- Axis-aligned bounding box with rational coordinates, the value
`(min_x, min_y, max_x, max_y)` handled by `dxf_utils.calcular_bbox_dxf`. -/
structure Box where
  minx : ℚ
  miny : ℚ
  maxx : ℚ
  maxy : ℚ
deriving DecidableEq

/-- Abstraction of an ezdxf DXF entity: `hasInsert` tells whether
`hasattr(e.dxf, 'insert')` holds, `(ix, iy)` is the insert point, and `box` is
the entity's own bounding box (`none` when `e.bbox()` is empty or raises). -/
structure Ent where
  hasInsert : Bool
  ix : ℚ
  iy : ℚ
  box : Option Box
deriving DecidableEq

instance : Inhabited Ent := ⟨⟨false, 0, 0, none⟩⟩

/-- Translation of a box by `(dx, dy)`. -/
def Box.shift (b : Box) (dx dy : ℚ) : Box :=
  ⟨b.minx + dx, b.miny + dy, b.maxx + dx, b.maxy + dy⟩

/-- `entity.translate(dx, dy, 0)`: shifts the insert point and the bbox. -/
def Ent.translate (e : Ent) (dx dy : ℚ) : Ent :=
  { e with ix := e.ix + dx, iy := e.iy + dy,
           box := e.box.map fun b => b.shift dx dy }

/-- `BoundingBox.extend` with a single point (`bbox_union.extend(p)`). -/
def extendPoint (u : Option Box) (x y : ℚ) : Option Box :=
  match u with
  | none => some ⟨x, y, x, y⟩
  | some b => some ⟨min b.minx x, min b.miny y, max b.maxx x, max b.maxy y⟩

/-- One iteration of the entity loop of `calcular_bbox_dxf`: a failing or empty
entity bbox is skipped, otherwise the union is extended with `extmin` and
`extmax`. -/
def entityStep (u : Option Box) (e : Ent) : Option Box :=
  match e.box with
  | none => u
  | some b => extendPoint (extendPoint u b.minx b.miny) b.maxx b.maxy

/-- The accumulated `bbox_union` over the whole modelspace. -/
def bboxUnion (msp : List Ent) : Option Box :=
  msp.foldl entityStep none

/-- `dxf_utils.calcular_bbox_dxf`: returns `(0,0,0,0)` when the modelspace is
empty, when the union stayed empty, or when the union is degenerate
(`min_x >= max_x or min_y >= max_y`); otherwise the union box. -/
def calcular_bbox_dxf (msp : List Ent) : Box :=
  if msp.isEmpty then ⟨0, 0, 0, 0⟩
  else
    match bboxUnion msp with
    | none => ⟨0, 0, 0, 0⟩
    | some b => if b.maxx ≤ b.minx ∨ b.maxy ≤ b.miny then ⟨0, 0, 0, 0⟩ else b

/-- Python `s.split('-')`: no runs are merged and the empty string yields
`['']`. -/
def splitDash : List Char → List (List Char)
  | [] => [[]]
  | c :: rest =>
      match splitDash rest with
      | [] => [[]]
      | g :: gs => if c = '-' then [] :: g :: gs else (c :: g) :: gs

/-- `dxf_utils.parse_sku`: splits on `'-'` and, when exactly 7 groups result,
returns groups 1, 2, 3 and 5 (format, size, hole type, color); otherwise the
all-`None` result, modelled as `none`. -/
def parse_sku (sku : List Char) : Option (List Char × List Char × List Char × List Char) :=
  match splitDash sku with
  | [p1, p2, p3, _p4, p5, _p6, _p7] => some (p1, p2, p3, p5)
  | _ => none

/-- The acceptance test of the engine's item loop
(`dxf_layout_engine.generate_single_plan_layout_data`, the
`if not dxf_format or not dxf_size or not hole_type or not color_code` guard):
an item is kept only when `parse_sku` succeeded and none of the four extracted
fields is empty (Python's falsiness of `''` and `None`). -/
def accepted_sku_fields (sku : List Char) :
    Option (List Char × List Char × List Char × List Char) :=
  match parse_sku sku with
  | none => none
  | some (f, s, h, c) =>
      if f = [] ∨ s = [] ∨ h = [] ∨ c = [] then none else some (f, s, h, c)

/-- `ESPACAMENTO_DXF_MESMO_FURO`: horizontal spacing inside a hole group. -/
def ESPACAMENTO_DXF_MESMO_FURO : ℚ := 100

/-- `ESPACAMENTO_LINHA_COR`: vertical spacing between color rows (also reused
as the inter-plan spacing in `main.compor_plano`). -/
def ESPACAMENTO_LINHA_COR : ℚ := 200

/-- `ESPACAMENTO_PLANO_COR`: spacing between the plan-info drawing and the
first color row. -/
def ESPACAMENTO_PLANO_COR : ℚ := 100

/-- `MARGEM_ESQUERDA`. -/
def MARGEM_ESQUERDA : ℚ := 50

/-- `MARGEM_INFERIOR`. -/
def MARGEM_INFERIOR : ℚ := 50

/-- `PLANO_DXF_FIXED_WIDTH_MM`. -/
def PLANO_DXF_FIXED_WIDTH_MM : ℚ := 236

/-- `PLANO_DXF_FIXED_HEIGHT_MM` (21.5). -/
def PLANO_DXF_FIXED_HEIGHT_MM : ℚ := 215 / 10

/-- `ITEM_DXF_FIXED_WIDTH_MM`. -/
def ITEM_DXF_FIXED_WIDTH_MM : ℚ := 129

/-- `ITEM_DXF_FIXED_HEIGHT_MM` (225.998). -/
def ITEM_DXF_FIXED_HEIGHT_MM : ℚ := 225998 / 1000

/-- `BARRA_DXF_FIXED_WIDTH_MM`. -/
def BARRA_DXF_FIXED_WIDTH_MM : ℚ := 10

/-- `BARRA_DXF_FIXED_HEIGHT_MM`. -/
def BARRA_DXF_FIXED_HEIGHT_MM : ℚ := 250

/-- `ESPACAMENTO_SEPARADOR`: spacing before and after the separator bar. -/
def ESPACAMENTO_SEPARADOR : ℚ := 100

/-- The fallback applied when loading an item, the plan-info drawing or the
separator bar (`dxf_layout_engine` lines 184-191, 233-239 and 76-86): measure
the bbox, and when width and height are both exactly `0`, substitute the
role's fixed dimensions and reset the reference origin to `(0, 0)`.
Returns `(width, height, original_min_x, original_min_y)`. -/
def dims_with_fallback (msp : List Ent) (fw fh : ℚ) : ℚ × ℚ × ℚ × ℚ :=
  let r := calcular_bbox_dxf msp
  let w := r.maxx - r.minx
  let h := r.maxy - r.miny
  if w = 0 ∧ h = 0 then (fw, fh, 0, 0) else (w, h, r.minx, r.miny)

/-- A loaded auxiliary drawing (the plan-info drawing `{plan_name}.dxf` or the
separator bar `Barra.dxf`): copied entities, width, height and reference
origin as produced by the load-with-fallback step. -/
structure Frag where
  ents : List Ent
  w : ℚ
  h : ℚ
  minX : ℚ
  minY : ℚ
deriving DecidableEq

/-- One record of `organized_dxfs[color][format][size][hole]`:
`{'entities': ..., 'sku': ..., 'bbox_width': ..., 'bbox_height': ...,
'original_min_x': ..., 'original_min_y': ...}`. -/
structure ItemDxf where
  sku : List Char
  ents : List Ent
  bbox_width : ℚ
  bbox_height : ℚ
  original_min_x : ℚ
  original_min_y : ℚ
deriving DecidableEq

/-- A hole-type group: hole key and its item list (insertion order). -/
abbrev HoleGroup := List Char × List ItemDxf

/-- A size group: size key and its hole groups in ascending key order. -/
abbrev SizeGroup := List Char × List HoleGroup

/-- A format group: format key and its size groups in ascending key order. -/
abbrev FormatGroup := List Char × List SizeGroup

/-- A color row: color key and its format groups in ascending key order. -/
abbrev ColorGroup := List Char × List FormatGroup

/-- An entry of `all_relative_entities_with_coords`: the translated entity
copy together with the recorded `(x, y)` pair. -/
abbrev Placement := Ent × ℚ × ℚ

/-- Appending one translated entity: the recorded coordinates are the
translated insert point when the entity has a `dxf.insert` attribute, and the
translation offsets otherwise, exactly as in the source's
`(new_ent, new_ent.dxf.insert.x if hasattr(...) else offset_x, ...)`. -/
def recordPlacement (e : Ent) (dx dy : ℚ) : Placement :=
  let ne := e.translate dx dy
  (ne, if ne.hasInsert then ne.ix else dx, if ne.hasInsert then ne.iy else dy)

/-- Place all entities of a fragment with a common offset. -/
def placeEnts (es : List Ent) (dx dy : ℚ) : List Placement :=
  es.map fun e => recordPlacement e dx dy

/-- `max_height_in_color_line` folded over one hole-type group's items. -/
def itemsFoldMax (a : ℚ) (its : List ItemDxf) : ℚ :=
  its.foldl (fun acc it => max acc it.bbox_height) a

/-- `max_height_in_color_line` folded over a size group's hole groups. -/
def holesFoldMax (a : ℚ) (hs : List HoleGroup) : ℚ :=
  hs.foldl (fun acc hg => itemsFoldMax acc hg.2) a

/-- `max_height_in_color_line` folded over a format group's size groups. -/
def sizesFoldMax (a : ℚ) (ss : List SizeGroup) : ℚ :=
  ss.foldl (fun acc sg => holesFoldMax acc sg.2) a

/-- `max_height_in_color_line` folded over a color row's format groups. -/
def fmtsFoldMax (a : ℚ) (fs : List FormatGroup) : ℚ :=
  fs.foldl (fun acc fg => sizesFoldMax acc fg.2) a

/-- `max_height_in_color_line` for one color row: starts at `0`, is raised to
the bar height when `barra_entities` is non-empty, then folded with every
item's `bbox_height` (`dxf_layout_engine` lines 325-335, and identically in
the height-estimation pass, lines 269-280). -/
def rowMaxHeight (barra : Option Frag) (fs : List FormatGroup) : ℚ :=
  fmtsFoldMax (match barra with | none => 0 | some b => max 0 b.h) fs

/-- `estimated_layout_height` (first pass of stage 3): plan-info height plus
spacing when present, plus each color row's height and row spacing, minus the
trailing row spacing, with the empty layout forced to `1`. -/
def estimated_layout_height (plano barra : Option Frag) (rows : List ColorGroup) : ℚ :=
  let e0 : ℚ := match plano with
    | some p => p.h + ESPACAMENTO_PLANO_COR
    | none => 0
  let e1 := rows.foldl
    (fun acc row =>
      let m := rowMaxHeight barra row.2
      if 0 < m then acc + m + ESPACAMENTO_LINHA_COR else acc) e0
  let e2 := if rows.isEmpty = false ∧ 0 < e1 then e1 - ESPACAMENTO_LINHA_COR else e1
  if e2 = 0 then 1 else e2

/-- The separator step repeated verbatim at the format, size and hole-type
boundaries of the engine: with the bar loaded, advance by the separator
spacing, place one copy of the bar at the cursor, then advance by bar width
plus separator spacing; without the bar, advance by the same-group spacing
and place nothing.  Returns the new cursor and the placed fragment. -/
def placeSeparator (barra : Option Frag) (row_base_y x : ℚ) : ℚ × List Placement :=
  match barra with
  | some b =>
      let x1 := x + ESPACAMENTO_SEPARADOR
      (x1 + b.w + ESPACAMENTO_SEPARADOR, placeEnts b.ents (x1 - b.minX) (row_base_y - b.minY))
  | none => (x + ESPACAMENTO_DXF_MESMO_FURO, [])

/-- `sorted(hole_type_group, key=lambda x: x['sku'])` (stable sort). -/
def sortBySku (its : List ItemDxf) : List ItemDxf :=
  List.insertionSort (fun a b => a.sku ≤ b.sku) its

/-- Placing one item at the cursor: offsets move `(original_min_x,
original_min_y)` to `(x, row_base_y)` and the cursor advances by the item
width. -/
def placeItemAt (row_base_y x : ℚ) (it : ItemDxf) : ℚ × List Placement :=
  (x + it.bbox_width,
   placeEnts it.ents (x - it.original_min_x) (row_base_y - it.original_min_y))

/-- Items after the first of a hole group: each is preceded by the same-group
spacing. -/
def placeItemsRest (row_base_y : ℚ) : ℚ → List ItemDxf → ℚ × List Placement
  | x, [] => (x, [])
  | x, it :: rest =>
      let s := placeItemAt row_base_y (x + ESPACAMENTO_DXF_MESMO_FURO) it
      let t := placeItemsRest row_base_y s.1 rest
      (t.1, s.2 ++ t.2)

/-- The item loop of one hole group (`first_dxf_in_group` handling). -/
def placeItems (row_base_y : ℚ) : ℚ → List ItemDxf → ℚ × List Placement
  | x, [] => (x, [])
  | x, it :: rest =>
      let s := placeItemAt row_base_y x it
      let t := placeItemsRest row_base_y s.1 rest
      (t.1, s.2 ++ t.2)

/-- One hole group: its items are sorted by SKU and then placed. -/
def placeHoleGroup (row_base_y x : ℚ) (hg : HoleGroup) : ℚ × List Placement :=
  placeItems row_base_y x (sortBySku hg.2)

/-- Hole groups after the first of a size group: each is preceded by the
separator step (`first_hole_type_in_size` handling). -/
def placeHolesRest (barra : Option Frag) (row_base_y : ℚ) :
    ℚ → List HoleGroup → ℚ × List Placement
  | x, [] => (x, [])
  | x, hg :: rest =>
      let sep := placeSeparator barra row_base_y x
      let s := placeHoleGroup row_base_y sep.1 hg
      let t := placeHolesRest barra row_base_y s.1 rest
      (t.1, sep.2 ++ s.2 ++ t.2)

/-- The hole-type loop of one size group. -/
def placeHoles (barra : Option Frag) (row_base_y : ℚ) :
    ℚ → List HoleGroup → ℚ × List Placement
  | x, [] => (x, [])
  | x, hg :: rest =>
      let s := placeHoleGroup row_base_y x hg
      let t := placeHolesRest barra row_base_y s.1 rest
      (t.1, s.2 ++ t.2)

/-- Size groups after the first of a format group (`first_size_in_format`). -/
def placeSizesRest (barra : Option Frag) (row_base_y : ℚ) :
    ℚ → List SizeGroup → ℚ × List Placement
  | x, [] => (x, [])
  | x, sg :: rest =>
      let sep := placeSeparator barra row_base_y x
      let s := placeHoles barra row_base_y sep.1 sg.2
      let t := placeSizesRest barra row_base_y s.1 rest
      (t.1, sep.2 ++ s.2 ++ t.2)

/-- The size loop of one format group. -/
def placeSizes (barra : Option Frag) (row_base_y : ℚ) :
    ℚ → List SizeGroup → ℚ × List Placement
  | x, [] => (x, [])
  | x, sg :: rest =>
      let s := placeHoles barra row_base_y x sg.2
      let t := placeSizesRest barra row_base_y s.1 rest
      (t.1, s.2 ++ t.2)

/-- Format groups after the first of a color row (`first_format_in_line`). -/
def placeFormatsRest (barra : Option Frag) (row_base_y : ℚ) :
    ℚ → List FormatGroup → ℚ × List Placement
  | x, [] => (x, [])
  | x, fg :: rest =>
      let sep := placeSeparator barra row_base_y x
      let s := placeSizes barra row_base_y sep.1 fg.2
      let t := placeFormatsRest barra row_base_y s.1 rest
      (t.1, sep.2 ++ s.2 ++ t.2)

/-- The format loop of one color row. -/
def placeFormats (barra : Option Frag) (row_base_y : ℚ) :
    ℚ → List FormatGroup → ℚ × List Placement
  | x, [] => (x, [])
  | x, fg :: rest =>
      let s := placeSizes barra row_base_y x fg.2
      let t := placeFormatsRest barra row_base_y s.1 rest
      (t.1, s.2 ++ t.2)

/-- The color-row loop: each row resets the cursor to the left margin, drops
the baseline by the row height and descends by the row spacing afterwards. -/
def placeRows (barra : Option Frag) : ℚ → List ColorGroup → List Placement
  | _, [] => []
  | y, row :: rest =>
      let m := rowMaxHeight barra row.2
      let rby := y - m
      (placeFormats barra rby MARGEM_ESQUERDA row.2).2
        ++ placeRows barra (rby - ESPACAMENTO_LINHA_COR) rest

/-- Stages 3 of the engine: the full pre-normalization
`all_relative_entities_with_coords` list (plan-info drawing first, then the
color rows, top to bottom). -/
def layoutPlacements (plano barra : Option Frag) (rows : List ColorGroup) : List Placement :=
  let est := estimated_layout_height plano barra rows
  let y0 := est - MARGEM_INFERIOR
  match plano with
  | some p =>
      let iy := y0 - p.h
      placeEnts p.ents (MARGEM_ESQUERDA - p.minX) (iy - p.minY)
        ++ placeRows barra (iy - ESPACAMENTO_PLANO_COR) rows
  | none => placeRows barra y0 rows

/-- Stage 4's bounding box of the whole relative layout, via
`calcular_bbox_dxf` over the temporary modelspace. -/
def layoutBBox (plano barra : Option Frag) (rows : List ColorGroup) : Box :=
  calcular_bbox_dxf ((layoutPlacements plano barra rows).map Prod.fst)

/-- `generate_single_plan_layout_data`, stages 3-4: build the relative
placements; with no placements return the empty layout; with a degenerate
final bbox return the placements unnormalized with a fixed width and the
estimated height; otherwise translate everything by `(-min_x, -min_y)` and
return the bbox extents as width and height. -/
def generate_single_plan_layout_data (plano barra : Option Frag) (rows : List ColorGroup) :
    List Placement × ℚ × ℚ :=
  let ps := layoutPlacements plano barra rows
  if ps = [] then ([], 0, 0)
  else
    let r := calcular_bbox_dxf (ps.map Prod.fst)
    if r.minx = r.maxx ∧ r.miny = r.maxy then
      (ps, MARGEM_ESQUERDA * 2 + 100, estimated_layout_height plano barra rows)
    else
      (ps.map fun p => (p.1.translate (-r.minx) (-r.miny), p.2.1 + -r.minx, p.2.2 + -r.miny),
       r.maxx - r.minx, r.maxy - r.miny)

/-- Number of entities contributed by one separator step. -/
def sepEntsLen : Option Frag → ℕ
  | none => 0
  | some b => b.ents.length

/-- Total number of entities of a list of items. -/
def itemsEntsLen (its : List ItemDxf) : ℕ :=
  (its.map fun it => it.ents.length).sum

/-- Total number of item entities of a list of hole groups. -/
def holesEntsLen (hs : List HoleGroup) : ℕ :=
  (hs.map fun hg => itemsEntsLen hg.2).sum

/-- Total number of item entities of a list of size groups. -/
def sizesEntsLen (ss : List SizeGroup) : ℕ :=
  (ss.map fun sg => holesEntsLen sg.2).sum

/-- Total number of item entities of a color row. -/
def fmtsEntsLen (fs : List FormatGroup) : ℕ :=
  (fs.map fun fg => sizesEntsLen fg.2).sum

/-- Boundary transitions between sibling hole groups. -/
def holeBoundaries (hs : List HoleGroup) : ℕ := hs.length - 1

/-- Boundary transitions at the size level and below. -/
def sizeBoundaries (ss : List SizeGroup) : ℕ :=
  (ss.length - 1) + (ss.map fun sg => holeBoundaries sg.2).sum

/-- Boundary transitions of a whole color row: between sibling groups at the
format, size and hole-type levels. -/
def fmtBoundaries (fs : List FormatGroup) : ℕ :=
  (fs.length - 1) + (fs.map fun fg => sizeBoundaries fg.2).sum

/-- The per-plan result consumed by `main.compor_plano`: plan name together
with the triple returned by `generate_single_plan_layout_data`. -/
structure PlanOut where
  plan_name : List Char
  ents : List Placement
  layout_width : ℚ
  layout_height : ℚ

/-- One plan as stitched into the main document: its name, the global base
offset `current_y_offset_global` at which it was placed, its layout height,
and its entities translated by `(0, current_y_offset_global)`. -/
structure PlacedPlan where
  plan_name : List Char
  base_y : ℚ
  h : ℚ
  msp_ents : List Ent

/-- The plan loop of `main.compor_plano` (lines 91-125): plans whose layout
produced no entities are skipped; every other plan's entity copies are
translated vertically by the accumulated offset, which then grows by the
plan's layout height plus `ESPACAMENTO_LINHA_COR`. -/
def composeLoop : ℚ → List PlanOut → List PlacedPlan
  | _, [] => []
  | off, p :: rest =>
      if p.ents = [] then composeLoop off rest
      else
        { plan_name := p.plan_name, base_y := off, h := p.layout_height,
          msp_ents := p.ents.map fun q => q.1.translate 0 off }
          :: composeLoop (off + p.layout_height + ESPACAMENTO_LINHA_COR) rest

/-- `main.compor_plano`'s stitching: sort the plans by `plan_name` ascending
(line 88) and run the plan loop from a zero global offset. -/
def compor_plano (plans : List PlanOut) : List PlacedPlan :=
  composeLoop 0 (List.insertionSort (fun a b => a.plan_name ≤ b.plan_name) plans)

/-- The JSON body returned by `main.compor_plano` on success (lines 173-176):
exactly a `message` field and a `dxf_url` field. -/
def compose_success_response (url : String) : List (String × String) :=
  [("message", "Plano de corte DXF composto e enviado ao Google Drive com sucesso!"),
   ("dxf_url", url)]

/-- A mutable arena of ezdxf entities; an entity reference is an index. -/
abbrev Store := List Ent

/-- `entity.copy()`: allocate a fresh slot holding the same entity data. -/
def entCopy (st : Store) (i : ℕ) : Store × ℕ :=
  (st ++ [st.getD i default], st.length)

/-- `new_ent = ent.copy(); new_ent.translate(dx, dy, 0)`: the translation
mutates only the freshly allocated copy. -/
def entCopyTranslate (st : Store) (i : ℕ) (dx dy : ℚ) : Store × ℕ :=
  (st ++ [(st.getD i default).translate dx dy], st.length)

/-- Fragment load (`entities_to_add.append(entity.copy())`, engine lines
193-195 and the analogous plan-info and bar loops): copy every modelspace
entity into the arena. -/
def loadFragmentStore : Store → List ℕ → Store × List ℕ
  | st, [] => (st, [])
  | st, i :: rest =>
      let c := entCopy st i
      let t := loadFragmentStore c.1 rest
      (t.1, c.2 :: t.2)

/-- The recorded coordinates for a placed copy, as in `recordPlacement`. -/
def recordAt (st : Store) (j : ℕ) (dx dy : ℚ) : ℕ × ℚ × ℚ :=
  let e := st.getD j default
  (j, if e.hasInsert then e.ix else dx, if e.hasInsert then e.iy else dy)

/-- Placement of a fragment into the running layout (engine lines 428-431 and
the separator/plan-info analogues): copy, translate the copy, record it. -/
def placeFragmentStore (dx dy : ℚ) : Store → List ℕ → Store × List (ℕ × ℚ × ℚ)
  | st, [] => (st, [])
  | st, i :: rest =>
      let c := entCopyTranslate st i dx dy
      let t := placeFragmentStore dx dy c.1 rest
      (t.1, recordAt c.1 c.2 dx dy :: t.2)

/-- Final normalization (engine lines 474-477): for every pre-normalization
placement record, copy the entity again, translate the copy and shift the
recorded coordinates. -/
def normalizeStoreLoop (ofx ofy : ℚ) : Store → List (ℕ × ℚ × ℚ) → Store × List (ℕ × ℚ × ℚ)
  | st, [] => (st, [])
  | st, (i, x, y) :: rest =>
      let c := entCopyTranslate st i ofx ofy
      let t := normalizeStoreLoop ofx ofy c.1 rest
      (t.1, (c.2, x + ofx, y + ofy) :: t.2)

/-- An entity with no geometry and no insert attribute. -/
def demoEnt : Ent := ⟨false, 0, 0, none⟩

/-- A separator bar as loaded with its fixed fallback dimensions. -/
def demoBarra : Frag := ⟨[demoEnt], BARRA_DXF_FIXED_WIDTH_MM, BARRA_DXF_FIXED_HEIGHT_MM, 0, 0⟩

/-- An item of height 10, shorter than the separator bar. -/
def demoItemShort : ItemDxf := ⟨['s'], [demoEnt], 20, 10, 0, 0⟩

/-- A single-format, single-size, single-hole color row holding only
`demoItemShort`. -/
def demoRowSingle : List FormatGroup := [(['P'], [(['3'], [(['2'], [demoItemShort])])])]

/-- An item whose single entity has the bounding box `(5,5)-(10,10)`. -/
def demoItemGeo : ItemDxf := ⟨['g'], [⟨false, 0, 0, some ⟨5, 5, 10, 10⟩⟩], 5, 5, 5, 5⟩

/-- A one-color, one-item organized structure with real geometry. -/
def demoRowsGeo : List ColorGroup := [(['D'], [(['P'], [(['3'], [(['2'], [demoItemGeo])])])])]

/-- An item carrying the 0x0-bbox fallback dimensions, as in example
scenario B of the specification. -/
def fallbackItem (sku : List Char) (e : Ent) : ItemDxf :=
  ⟨sku, [e], ITEM_DXF_FIXED_WIDTH_MM, ITEM_DXF_FIXED_HEIGHT_MM, 0, 0⟩

/-- Scenario B input: two fallback items sharing color `DOU`, format `PLAC`,
size `3010` and hole type `2FH`. -/
def demoRowsScenarioB (s1 s2 : List Char) (e1 e2 : Ent) : List ColorGroup :=
  [(['D','O','U'],
    [(['P','L','A','C'],
      [(['3','0','1','0'],
        [(['2','F','H'], [fallbackItem s1 e1, fallbackItem s2 e2])])])])]

/-- A single-plan result with one placement, for the composition model. -/
def demoPlanOut : PlanOut := ⟨['A'], [(demoEnt, 0, 0)], 100, 225⟩

/-! Helper lemmas shared by several claim theorems. -/

/-- Case analysis on `calcular_bbox_dxf`: the result is the all-zero box when
the union is empty or degenerate, and the (strictly non-degenerate) union box
otherwise. -/
theorem calcular_bbox_dxf_cases (msp : List Ent) :
    (bboxUnion msp = none ∧ calcular_bbox_dxf msp = ⟨0, 0, 0, 0⟩) ∨
    (∃ b, bboxUnion msp = some b ∧ (b.maxx ≤ b.minx ∨ b.maxy ≤ b.miny) ∧
      calcular_bbox_dxf msp = ⟨0, 0, 0, 0⟩) ∨
    (∃ b, bboxUnion msp = some b ∧ b.minx < b.maxx ∧ b.miny < b.maxy ∧
      calcular_bbox_dxf msp = b) := by
  cases hmsp : msp with
  | nil =>
      left
      exact ⟨rfl, rfl⟩
  | cons e t =>
      cases hu : bboxUnion (e :: t) with
      | none =>
          left
          exact ⟨rfl, by simp [calcular_bbox_dxf, hu]⟩
      | some b =>
          by_cases hd : b.maxx ≤ b.minx ∨ b.maxy ≤ b.miny
          · right; left
            exact ⟨b, rfl, hd, by simp [calcular_bbox_dxf, hu, hd]⟩
          · right; right
            push_neg at hd
            exact ⟨b, rfl, hd.1, hd.2, by
              simp only [calcular_bbox_dxf, hu, List.isEmpty_cons, Bool.false_eq_true,
                if_false]
              rw [if_neg]
              push_neg
              exact hd⟩

/-- Folding `max` distributes over a raised starting value (item level). -/
theorem itemsFoldMax_max (a : ℚ) (its : List ItemDxf) :
    ∀ c, itemsFoldMax (max a c) its = max a (itemsFoldMax c its) := by
  induction its with
  | nil => intro c; rfl
  | cons it rest ih =>
      intro c
      simp only [itemsFoldMax, List.foldl_cons] at *
      rw [max_assoc, ih]

/-- Folding `max` distributes over a raised starting value (hole level). -/
theorem holesFoldMax_max (a : ℚ) (hs : List HoleGroup) :
    ∀ c, holesFoldMax (max a c) hs = max a (holesFoldMax c hs) := by
  induction hs with
  | nil => intro c; rfl
  | cons hg rest ih =>
      intro c
      simp only [holesFoldMax, List.foldl_cons] at *
      rw [show itemsFoldMax (max a c) hg.2 = max a (itemsFoldMax c hg.2) from
        itemsFoldMax_max a hg.2 c, ih]

/-- Folding `max` distributes over a raised starting value (size level). -/
theorem sizesFoldMax_max (a : ℚ) (ss : List SizeGroup) :
    ∀ c, sizesFoldMax (max a c) ss = max a (sizesFoldMax c ss) := by
  induction ss with
  | nil => intro c; rfl
  | cons sg rest ih =>
      intro c
      simp only [sizesFoldMax, List.foldl_cons] at *
      rw [show holesFoldMax (max a c) sg.2 = max a (holesFoldMax c sg.2) from
        holesFoldMax_max a sg.2 c, ih]

/-- Folding `max` distributes over a raised starting value (format level). -/
theorem fmtsFoldMax_max (a : ℚ) (fs : List FormatGroup) :
    ∀ c, fmtsFoldMax (max a c) fs = max a (fmtsFoldMax c fs) := by
  induction fs with
  | nil => intro c; rfl
  | cons fg rest ih =>
      intro c
      simp only [fmtsFoldMax, List.foldl_cons] at *
      rw [show sizesFoldMax (max a c) fg.2 = max a (sizesFoldMax c fg.2) from
        sizesFoldMax_max a fg.2 c, ih]

/-- A placed fragment has one placement per entity. -/
theorem placeEnts_length (es : List Ent) (dx dy : ℚ) :
    (placeEnts es dx dy).length = es.length := by
  simp [placeEnts]

/-- The separator step places exactly `sepEntsLen barra` entities. -/
theorem placeSeparator_length (barra : Option Frag) (rby x : ℚ) :
    ((placeSeparator barra rby x).2).length = sepEntsLen barra := by
  cases barra <;> simp [placeSeparator, placeEnts_length, sepEntsLen]

/-- Entity count of the non-first items of a hole group. -/
theorem placeItemsRest_length (rby : ℚ) (its : List ItemDxf) :
    ∀ x, ((placeItemsRest rby x its).2).length = itemsEntsLen its := by
  induction its with
  | nil => intro x; simp [placeItemsRest, itemsEntsLen]
  | cons it rest ih =>
      intro x
      simp [placeItemsRest, placeItemAt, itemsEntsLen, placeEnts_length, ih,
        List.length_append] at *

/-- Entity count of a hole group's item loop. -/
theorem placeItems_length (rby : ℚ) (its : List ItemDxf) :
    ∀ x, ((placeItems rby x its).2).length = itemsEntsLen its := by
  cases its with
  | nil => intro x; simp [placeItems, itemsEntsLen]
  | cons it rest =>
      intro x
      simp [placeItems, placeItemAt, itemsEntsLen, placeEnts_length,
        placeItemsRest_length, List.length_append]

/-- Sorting a hole group by SKU keeps the total entity count. -/
theorem sortBySku_entsLen (its : List ItemDxf) :
    itemsEntsLen (sortBySku its) = itemsEntsLen its := by
  unfold itemsEntsLen sortBySku
  exact ((List.perm_insertionSort _ its).map _).sum_eq

/-- Entity count of one placed hole group. -/
theorem placeHoleGroup_length (rby x : ℚ) (hg : HoleGroup) :
    ((placeHoleGroup rby x hg).2).length = itemsEntsLen hg.2 := by
  unfold placeHoleGroup
  rw [placeItems_length, sortBySku_entsLen]

/-- Entity count of the non-first hole groups of a size group. -/
theorem placeHolesRest_length (barra : Option Frag) (rby : ℚ) (hs : List HoleGroup) :
    ∀ x, ((placeHolesRest barra rby x hs).2).length =
      holesEntsLen hs + hs.length * sepEntsLen barra := by
  induction hs with
  | nil => intro x; simp [placeHolesRest, holesEntsLen]
  | cons hg rest ih =>
      intro x
      simp only [placeHolesRest, List.length_append, placeSeparator_length,
        placeHoleGroup_length, ih, holesEntsLen, List.map_cons, List.sum_cons,
        List.length_cons]
      ring

/-- Entity count of one size group's hole loop. -/
theorem placeHoles_length (barra : Option Frag) (rby : ℚ) (hs : List HoleGroup) :
    ∀ x, ((placeHoles barra rby x hs).2).length =
      holesEntsLen hs + holeBoundaries hs * sepEntsLen barra := by
  cases hs with
  | nil => intro x; simp [placeHoles, holesEntsLen, holeBoundaries]
  | cons hg rest =>
      intro x
      simp only [placeHoles, List.length_append, placeHoleGroup_length,
        placeHolesRest_length, holesEntsLen, List.map_cons, List.sum_cons,
        holeBoundaries, List.length_cons, Nat.add_sub_cancel]
      ring

/-- Entity count of the non-first size groups of a format group. -/
theorem placeSizesRest_length (barra : Option Frag) (rby : ℚ) (ss : List SizeGroup) :
    ∀ x, ((placeSizesRest barra rby x ss).2).length =
      sizesEntsLen ss + (ss.length + (ss.map fun sg => holeBoundaries sg.2).sum)
        * sepEntsLen barra := by
  induction ss with
  | nil => intro x; simp [placeSizesRest, sizesEntsLen]
  | cons sg rest ih =>
      intro x
      simp only [placeSizesRest, List.length_append, placeSeparator_length,
        placeHoles_length, ih, sizesEntsLen, List.map_cons, List.sum_cons,
        List.length_cons]
      ring

/-- Entity count of one format group's size loop. -/
theorem placeSizes_length (barra : Option Frag) (rby : ℚ) (ss : List SizeGroup) :
    ∀ x, ((placeSizes barra rby x ss).2).length =
      sizesEntsLen ss + sizeBoundaries ss * sepEntsLen barra := by
  cases ss with
  | nil => intro x; simp [placeSizes, sizesEntsLen, sizeBoundaries]
  | cons sg rest =>
      intro x
      simp only [placeSizes, List.length_append, placeHoles_length,
        placeSizesRest_length, sizesEntsLen, sizeBoundaries, List.map_cons,
        List.sum_cons, List.length_cons, Nat.add_sub_cancel]
      ring

/-- Entity count of the non-first format groups of a color row. -/
theorem placeFormatsRest_length (barra : Option Frag) (rby : ℚ) (fs : List FormatGroup) :
    ∀ x, ((placeFormatsRest barra rby x fs).2).length =
      fmtsEntsLen fs + (fs.length + (fs.map fun fg => sizeBoundaries fg.2).sum)
        * sepEntsLen barra := by
  induction fs with
  | nil => intro x; simp [placeFormatsRest, fmtsEntsLen]
  | cons fg rest ih =>
      intro x
      simp only [placeFormatsRest, List.length_append, placeSeparator_length,
        placeSizes_length, ih, fmtsEntsLen, List.map_cons, List.sum_cons,
        List.length_cons]
      ring

/-- Entity count of one color row's format loop. -/
theorem placeFormats_length (barra : Option Frag) (rby : ℚ) (fs : List FormatGroup) :
    ∀ x, ((placeFormats barra rby x fs).2).length =
      fmtsEntsLen fs + fmtBoundaries fs * sepEntsLen barra := by
  cases fs with
  | nil => intro x; simp [placeFormats, fmtsEntsLen, fmtBoundaries]
  | cons fg rest =>
      intro x
      simp only [placeFormats, List.length_append, placeSizes_length,
        placeFormatsRest_length, fmtsEntsLen, fmtBoundaries, List.map_cons,
        List.sum_cons, List.length_cons, Nat.add_sub_cancel]
      ring

/-- Extending a shifted union with a shifted point is a shifted extension. -/
theorem extendPoint_shift (u : Option Box) (x y dx dy : ℚ) :
    extendPoint (u.map fun b => b.shift dx dy) (x + dx) (y + dy) =
      (extendPoint u x y).map fun b => b.shift dx dy := by
  cases u with
  | none => rfl
  | some b =>
      simp only [Option.map_some, extendPoint, Box.shift]
      simp [min_add_add_right, max_add_add_right]

/-- One bbox-union step commutes with translating the entity and the union. -/
theorem entityStep_shift (u : Option Box) (e : Ent) (dx dy : ℚ) :
    entityStep (u.map fun b => b.shift dx dy) (e.translate dx dy) =
      (entityStep u e).map fun b => b.shift dx dy := by
  cases hb : e.box with
  | none => simp [entityStep, Ent.translate, hb]
  | some b =>
      have h1 : (e.translate dx dy).box = some (b.shift dx dy) := by
        simp [Ent.translate, hb]
      calc entityStep (u.map fun c => c.shift dx dy) (e.translate dx dy)
          = extendPoint (extendPoint (u.map fun c => c.shift dx dy)
              (b.minx + dx) (b.miny + dy)) (b.maxx + dx) (b.maxy + dy) := by
            simp only [entityStep, h1]
            rfl
        _ = (extendPoint (extendPoint u b.minx b.miny) b.maxx b.maxy).map
              fun c => c.shift dx dy := by
            rw [extendPoint_shift, extendPoint_shift]
        _ = (entityStep u e).map fun c => c.shift dx dy := by
            simp [entityStep, hb]

/-- The accumulated bbox union of a translated modelspace is the translated
union. -/
theorem bboxUnion_shift (es : List Ent) (dx dy : ℚ) :
    bboxUnion (es.map fun e => e.translate dx dy) =
      (bboxUnion es).map fun b => b.shift dx dy := by
  suffices h : ∀ u : Option Box,
      (es.map fun e => e.translate dx dy).foldl entityStep
          (u.map fun b => b.shift dx dy) =
        (es.foldl entityStep u).map fun b => b.shift dx dy by
    simpa [bboxUnion] using h none
  induction es with
  | nil => intro u; rfl
  | cons e t ih =>
      intro u
      simp only [List.map_cons, List.foldl_cons]
      rw [entityStep_shift u e dx dy, ih]

/-- The store after a fragment load extends the old store. -/
theorem loadFragmentStore_extends (idxs : List ℕ) :
    ∀ st : Store, ∃ ext, (loadFragmentStore st idxs).1 = st ++ ext := by
  induction idxs with
  | nil => intro st; exact ⟨[], by simp [loadFragmentStore]⟩
  | cons i rest ih =>
      intro st
      obtain ⟨ext, hext⟩ := ih (st ++ [st.getD i default])
      exact ⟨[st.getD i default] ++ ext, by
        simp only [loadFragmentStore, entCopy, hext, List.append_assoc]⟩

/-- The store after a fragment placement extends the old store. -/
theorem placeFragmentStore_extends (dx dy : ℚ) (idxs : List ℕ) :
    ∀ st : Store, ∃ ext, (placeFragmentStore dx dy st idxs).1 = st ++ ext := by
  induction idxs with
  | nil => intro st; exact ⟨[], by simp [placeFragmentStore]⟩
  | cons i rest ih =>
      intro st
      obtain ⟨ext, hext⟩ := ih (st ++ [(st.getD i default).translate dx dy])
      exact ⟨[(st.getD i default).translate dx dy] ++ ext, by
        simp only [placeFragmentStore, entCopyTranslate, hext, List.append_assoc]⟩

/-- The store after the normalization loop extends the old store. -/
theorem normalizeStoreLoop_extends (ofx ofy : ℚ) (ps : List (ℕ × ℚ × ℚ)) :
    ∀ st : Store, ∃ ext, (normalizeStoreLoop ofx ofy st ps).1 = st ++ ext := by
  induction ps with
  | nil => intro st; exact ⟨[], by simp [normalizeStoreLoop]⟩
  | cons p rest ih =>
      intro st
      obtain ⟨ext, hext⟩ := ih (st ++ [(st.getD p.1 default).translate ofx ofy])
      exact ⟨[(st.getD p.1 default).translate ofx ofy] ++ ext, by
        obtain ⟨i, x, y⟩ := p
        simp only [normalizeStoreLoop, entCopyTranslate] at hext ⊢
        rw [hext, List.append_assoc]⟩

/-- The names produced by the plan loop are a sublist of the processed
names. -/
theorem composeLoop_names_sublist (l : List PlanOut) :
    ∀ off, ((composeLoop off l).map PlacedPlan.plan_name).Sublist
      (l.map PlanOut.plan_name) := by
  induction l with
  | nil => intro off; simp [composeLoop]
  | cons p rest ih =>
      intro off
      by_cases hp : p.ents = []
      · simp only [composeLoop, hp, if_pos, List.map_cons]
        exact (ih off).cons p.plan_name
      · simp only [composeLoop, hp, if_neg, List.map_cons, ite_false]
        exact (ih (off + p.layout_height + ESPACAMENTO_LINHA_COR)).cons₂ p.plan_name

/-- Every placed plan sits at or above the running offset. -/
theorem composeLoop_base_mono (l : List PlanOut)
    (hl : ∀ p ∈ l, 0 ≤ p.layout_height) :
    ∀ off, ∀ q ∈ composeLoop off l, off ≤ q.base_y := by
  induction l with
  | nil => intro off q hq; simp [composeLoop] at hq
  | cons p rest ih =>
      intro off q hq
      have hrest : ∀ p' ∈ rest, 0 ≤ p'.layout_height :=
        fun p' hp' => hl p' (List.mem_cons_of_mem p hp')
      by_cases hp : p.ents = []
      · simp only [composeLoop, hp, if_pos] at hq
        exact ih hrest off q hq
      · simp only [composeLoop, hp, ite_false] at hq
        rw [List.mem_cons] at hq
        rcases hq with hq | hq
        · subst hq; exact le_refl off
        · have h0 : 0 ≤ p.layout_height := hl p (List.mem_cons_self p rest)
          have := ih hrest (off + p.layout_height + ESPACAMENTO_LINHA_COR) q hq
          have hE : (0:ℚ) ≤ ESPACAMENTO_LINHA_COR := by norm_num [ESPACAMENTO_LINHA_COR]
          linarith

/-- Distinct placed plans are strictly separated vertically. -/
theorem composeLoop_pairwise (l : List PlanOut)
    (hl : ∀ p ∈ l, 0 ≤ p.layout_height) :
    ∀ off, List.Pairwise (fun a b => a.base_y + a.h < b.base_y) (composeLoop off l) := by
  induction l with
  | nil => intro off; simp [composeLoop]
  | cons p rest ih =>
      intro off
      have hrest : ∀ p' ∈ rest, 0 ≤ p'.layout_height :=
        fun p' hp' => hl p' (List.mem_cons_of_mem p hp')
      by_cases hp : p.ents = []
      · simp only [composeLoop, hp, if_pos]
        exact ih hrest off
      · simp only [composeLoop, hp, ite_false]
        refine List.Pairwise.cons ?_ (ih hrest _)
        intro q hq
        have := composeLoop_base_mono rest hrest
          (off + p.layout_height + ESPACAMENTO_LINHA_COR) q hq
        have hE : (0:ℚ) < ESPACAMENTO_LINHA_COR := by norm_num [ESPACAMENTO_LINHA_COR]
        simp only
        linarith

/-- Each placed plan's base offset is the sum, over the placed plans before
it, of layout height plus the inter-plan spacing. -/
theorem composeLoop_base_eq (l : List PlanOut) :
    ∀ off i, (hi : i < (composeLoop off l).length) →
      ((composeLoop off l)[i]).base_y =
        off + (((composeLoop off l).take i).map
          fun q => q.h + ESPACAMENTO_LINHA_COR).sum := by
  induction l with
  | nil => intro off i hi; simp [composeLoop] at hi
  | cons p rest ih =>
      intro off i hi
      by_cases hp : p.ents = []
      · simp only [composeLoop, hp, if_pos] at hi ⊢
        exact ih off i hi
      · simp only [composeLoop, hp, ite_false] at hi ⊢
        cases i with
        | zero => simp
        | succ j =>
            simp only [List.getElem_cons_succ, List.take_succ_cons, List.map_cons,
              List.sum_cons]
            have hj : j < (composeLoop (off + p.layout_height + ESPACAMENTO_LINHA_COR)
                rest).length := by
              simpa using hi
            rw [ih (off + p.layout_height + ESPACAMENTO_LINHA_COR) j hj]
            ring

/-- Every placed plan originates from a non-empty processed plan, and its
entities are the plan's entity copies translated by the base offset. -/
theorem composeLoop_origin (l : List PlanOut) :
    ∀ off, ∀ q ∈ composeLoop off l, ∃ p ∈ l, q.plan_name = p.plan_name ∧
      q.h = p.layout_height ∧
      q.msp_ents = p.ents.map (fun e => e.1.translate 0 q.base_y) ∧ p.ents ≠ [] := by
  induction l with
  | nil => intro off q hq; simp [composeLoop] at hq
  | cons p rest ih =>
      intro off q hq
      by_cases hp : p.ents = []
      · simp only [composeLoop, hp, if_pos] at hq
        obtain ⟨p', hp', h⟩ := ih off q hq
        exact ⟨p', List.mem_cons_of_mem p hp', h⟩
      · simp only [composeLoop, hp, ite_false] at hq
        rw [List.mem_cons] at hq
        rcases hq with hq | hq
        · refine ⟨p, List.mem_cons_self p rest, ?_⟩
          subst hq
          exact ⟨rfl, rfl, rfl, hp⟩
        · obtain ⟨p', hp', h⟩ := ih _ q hq
          exact ⟨p', List.mem_cons_of_mem p hp', h⟩

/-! The claim theorems. -/

/-- C5: `calcular_bbox_dxf` returns the all-zero quadruple exactly when no
entity yielded a valid extent or the accumulated box is degenerate
(`minX ≥ maxX` or `minY ≥ maxY`); otherwise it returns the union box with
`minX < maxX` and `minY < maxY`.  The function is total on every entity
collection (entities that raise or have empty boxes are `box = none` and are
skipped), so it never raises and, working over ℚ, never propagates the
infinities that an empty Python union would hold. -/
theorem C5_calcular_bbox_spec (msp : List Ent) :
    (calcular_bbox_dxf msp = ⟨0, 0, 0, 0⟩ ↔
      bboxUnion msp = none ∨
        ∃ b, bboxUnion msp = some b ∧ (b.maxx ≤ b.minx ∨ b.maxy ≤ b.miny)) ∧
    (calcular_bbox_dxf msp = ⟨0, 0, 0, 0⟩ ∨
      ∃ b, bboxUnion msp = some b ∧ b.minx < b.maxx ∧ b.miny < b.maxy ∧
        calcular_bbox_dxf msp = b) := by
  rcases calcular_bbox_dxf_cases msp with ⟨hu, hz⟩ | ⟨b, hu, hd, hz⟩ | ⟨b, hu, h1, h2, hz⟩
  · exact ⟨⟨fun _ => Or.inl hu, fun _ => hz⟩, Or.inl hz⟩
  · exact ⟨⟨fun _ => Or.inr ⟨b, hu, hd⟩, fun _ => hz⟩, Or.inl hz⟩
  · refine ⟨⟨fun hb => ?_, fun hor => ?_⟩, Or.inr ⟨b, hu, h1, h2, hz⟩⟩
    · rw [hz] at hb
      rw [hb] at h1
      exact absurd h1 (lt_irrefl 0)
    · rcases hor with hn | ⟨b', hb', hd⟩
      · rw [hu] at hn; cases hn
      · rw [hu] at hb'
        injection hb' with hb'
        subst hb'
        rcases hd with hd | hd
        · exact absurd h1 (not_lt.mpr hd)
        · exact absurd h2 (not_lt.mpr hd)

/-- C4: an item's SKU is accepted exactly when splitting on `'-'` yields 7
fields with the 1st, 2nd, 3rd and 5th non-empty, in which case those four
substrings (format, size, hole type, color) are returned; with any other
field count `parse_sku` yields the all-`None` result, and with any of the
four fields empty the engine's guard rejects the item, which is then skipped
rather than placed. -/
theorem C4_parse_sku_spec (sku f s h c : List Char) :
    (parse_sku sku = some (f, s, h, c) ↔
      ∃ p4 p6 p7, splitDash sku = [f, s, h, p4, c, p6, p7]) ∧
    (accepted_sku_fields sku = some (f, s, h, c) ↔
      (∃ p4 p6 p7, splitDash sku = [f, s, h, p4, c, p6, p7]) ∧
        f ≠ [] ∧ s ≠ [] ∧ h ≠ [] ∧ c ≠ []) := by
  rcases hl : splitDash sku with _ |
    ⟨a1, _ | ⟨a2, _ | ⟨a3, _ | ⟨a4, _ | ⟨a5, _ | ⟨a6, _ | ⟨a7, _ | ⟨a8, t⟩⟩⟩⟩⟩⟩⟩⟩ <;>
    simp only [parse_sku, accepted_sku_fields, hl] <;>
    simp
  constructor
  · rintro ⟨⟨h1, h2, h3, h4⟩, rfl, rfl, rfl, rfl⟩
    exact ⟨⟨rfl, rfl, rfl, rfl⟩, h1, h2, h3, h4⟩
  · rintro ⟨⟨rfl, rfl, rfl, rfl⟩, h1, h2, h3, h4⟩
    exact ⟨⟨h1, h2, h3, h4⟩, rfl, rfl, rfl, rfl⟩

/-- C6: when the computed bounding box has width 0 and height 0, the loader
substitutes the caller's fixed fallback dimensions and resets the reference
origin to `(0, 0)`; otherwise the measured width, height and origin are kept;
hence, for the positive fallback constants used by the three roles (item
129.0 x 225.998, plan-info 236.0 x 21.5, bar 10.0 x 250.0), the recorded
width and height are never zero. -/
theorem C6_fallback_dims (msp : List Ent) (fw fh : ℚ) (hfw : 0 < fw) (hfh : 0 < fh) :
    ((calcular_bbox_dxf msp).maxx - (calcular_bbox_dxf msp).minx = 0 ∧
      (calcular_bbox_dxf msp).maxy - (calcular_bbox_dxf msp).miny = 0 →
        dims_with_fallback msp fw fh = (fw, fh, 0, 0)) ∧
    (¬ ((calcular_bbox_dxf msp).maxx - (calcular_bbox_dxf msp).minx = 0 ∧
        (calcular_bbox_dxf msp).maxy - (calcular_bbox_dxf msp).miny = 0) →
      dims_with_fallback msp fw fh =
        ((calcular_bbox_dxf msp).maxx - (calcular_bbox_dxf msp).minx,
         (calcular_bbox_dxf msp).maxy - (calcular_bbox_dxf msp).miny,
         (calcular_bbox_dxf msp).minx, (calcular_bbox_dxf msp).miny)) ∧
    (0 < (dims_with_fallback msp fw fh).1 ∧ 0 < (dims_with_fallback msp fw fh).2.1) ∧
    (ITEM_DXF_FIXED_WIDTH_MM = 129 ∧ ITEM_DXF_FIXED_HEIGHT_MM = 225998 / 1000 ∧
      PLANO_DXF_FIXED_WIDTH_MM = 236 ∧ PLANO_DXF_FIXED_HEIGHT_MM = 215 / 10 ∧
      BARRA_DXF_FIXED_WIDTH_MM = 10 ∧ BARRA_DXF_FIXED_HEIGHT_MM = 250) := by
  refine ⟨fun hc => ?_, fun hc => ?_, ?_, by norm_num [ITEM_DXF_FIXED_WIDTH_MM,
    ITEM_DXF_FIXED_HEIGHT_MM, PLANO_DXF_FIXED_WIDTH_MM, PLANO_DXF_FIXED_HEIGHT_MM,
    BARRA_DXF_FIXED_WIDTH_MM, BARRA_DXF_FIXED_HEIGHT_MM]⟩
  · simp only [dims_with_fallback, hc, and_self, if_true]
  · simp only [dims_with_fallback, hc, if_false]
  · rcases calcular_bbox_dxf_cases msp with ⟨hu, hz⟩ | ⟨b, hu, hd, hz⟩ | ⟨b, hu, h1, h2, hz⟩
    · simp only [dims_with_fallback, hz]
      norm_num
      exact ⟨hfw, hfh⟩
    · simp only [dims_with_fallback, hz]
      norm_num
      exact ⟨hfw, hfh⟩
    · have hx : (0:ℚ) < b.maxx - b.minx := by linarith
      have hy : (0:ℚ) < b.maxy - b.miny := by linarith
      simp only [dims_with_fallback, hz]
      rw [if_neg]
      · exact ⟨hx, hy⟩
      · rintro ⟨h1', _⟩
        rw [h1'] at hx
        exact absurd hx (lt_irrefl 0)

/-- C6 witness: the empty modelspace triggers the fallback. -/
theorem C6_fallback_dims_witness :
    (0:ℚ) < 129 ∧ (0:ℚ) < 250 ∧ dims_with_fallback [] 129 250 = (129, 250, 0, 0) :=
  ⟨by norm_num, by norm_num,
    (C6_fallback_dims [] 129 250 (by norm_num) (by norm_num)).1 (by norm_num [calcular_bbox_dxf])⟩

/-- C8 counterexample: the success response of the composition endpoint
carries exactly a `message` and a `dxf_url` field; there is no field listing
the item identifiers that failed to place, refuting the claim that the list
of failed items is returned to the caller. -/
theorem C8_response_counterexample :
    ((compose_success_response ("u")).map Prod.fst = ["message", "dxf_url"]) ∧
    (∀ v : String, (("failed_items" : String), v) ∉ compose_success_response ("u")) := by
  constructor
  · rfl
  · intro v hv
    simp only [compose_success_response, List.mem_cons, List.mem_singleton,
      Prod.mk.injEq] at hv
    rcases hv with ⟨hk, _⟩ | ⟨hk, _⟩ | hv
    · exact absurd hk (by decide)
    · exact absurd hk (by decide)
    · simp at hv

/-- C8 amended: for every successful composition the response reports the
destination URL under `dxf_url` together with a `message` field, and nothing
else; failed item identifiers are only logged, never returned. -/
theorem C8_response_amended (url : String) :
    ((compose_success_response url).map Prod.fst = ["message", "dxf_url"]) ∧
    ("dxf_url", url) ∈ compose_success_response url := by
  exact ⟨rfl, by simp [compose_success_response]⟩

/-- C1: at a boundary transition the engine runs the separator step: with the
bar loaded it places exactly one copy of the bar fragment at the cursor
(advanced by the separator spacing) and advances the cursor by separator
spacing + bar width + separator spacing; with no bar it advances by the plain
same-group spacing and places nothing; either way the advance is positive;
and over a whole color row the number of placed separator entities is exactly
one bar copy per boundary transition at the format, size and hole-type
levels (none before the first group of each level). -/
theorem C1_separator_insertion :
    (∀ (b : Frag) (rby x : ℚ),
        placeSeparator (some b) rby x =
          (x + ESPACAMENTO_SEPARADOR + b.w + ESPACAMENTO_SEPARADOR,
           placeEnts b.ents (x + ESPACAMENTO_SEPARADOR - b.minX) (rby - b.minY))) ∧
    (∀ rby x : ℚ, placeSeparator none rby x = (x + ESPACAMENTO_DXF_MESMO_FURO, [])) ∧
    (∀ (barra : Option Frag) (rby x : ℚ),
        (∀ b, barra = some b → 0 ≤ b.w) → x < (placeSeparator barra rby x).1) ∧
    (∀ (barra : Option Frag) (rby x : ℚ) (fs : List FormatGroup),
        ((placeFormats barra rby x fs).2).length =
          fmtsEntsLen fs + fmtBoundaries fs * sepEntsLen barra) := by
  refine ⟨fun b rby x => rfl, fun rby x => rfl, fun barra rby x hb => ?_,
    fun barra rby x fs => placeFormats_length barra rby fs x⟩
  cases barra with
  | none =>
      simp only [placeSeparator]
      norm_num [ESPACAMENTO_DXF_MESMO_FURO]
  | some b =>
      have hw := hb b rfl
      simp only [placeSeparator]
      have hE : ESPACAMENTO_SEPARADOR = 100 := rfl
      rw [hE]
      linarith

/-- C1 witness: the separator step with the fixed-size bar strictly advances
the cursor. -/
theorem C1_separator_insertion_witness :
    (∀ b : Frag, (some demoBarra : Option Frag) = some b → 0 ≤ b.w) ∧
    (0:ℚ) < (placeSeparator (some demoBarra) 0 0).1 := by
  have hw : ∀ b : Frag, (some demoBarra : Option Frag) = some b → 0 ≤ b.w := by
    intro b hb
    injection hb with hb
    subst hb
    norm_num [demoBarra, BARRA_DXF_FIXED_WIDTH_MM]
  exact ⟨hw, C1_separator_insertion.2.2.1 (some demoBarra) 0 0 hw⟩

/-- C2 counterexample: a single-group color row (no separator is ever placed
in it, as its boundary count is 0) whose only item has height 10 still gets
row height 250 when the separator bar is loaded, not the maximum item height
alone — the bar height is counted whenever the bar is loaded, not only when a
separator is actually placed. -/
theorem C2_rowheight_counterexample :
    rowMaxHeight (some demoBarra) demoRowSingle = 250 ∧
    rowMaxHeight none demoRowSingle = 10 ∧
    fmtBoundaries demoRowSingle = 0 ∧
    rowMaxHeight (some demoBarra) demoRowSingle ≠ rowMaxHeight none demoRowSingle := by
  refine ⟨?_, ?_, ?_, ?_⟩ <;>
    norm_num [rowMaxHeight, fmtsFoldMax, sizesFoldMax, holesFoldMax, itemsFoldMax,
      demoBarra, demoItemShort, demoRowSingle, fmtBoundaries, sizeBoundaries,
      holeBoundaries, BARRA_DXF_FIXED_HEIGHT_MM]

/-- C2 amended: the row height used to position a color row's baseline is the
maximum item height of the row (clamped at 0), additionally counting the
separator-bar height whenever the separator bar is loaded — even in rows
where no separator is placed. -/
theorem C2_rowheight_amended (b : Frag) (fs : List FormatGroup) :
    rowMaxHeight (some b) fs = max (max 0 b.h) (rowMaxHeight none fs) := by
  have h0 : max 0 b.h = max (max 0 b.h) 0 := (max_eq_left (le_max_left 0 b.h)).symm
  show fmtsFoldMax (max 0 b.h) fs = max (max 0 b.h) (fmtsFoldMax 0 fs)
  nth_rewrite 1 [h0]
  exact fmtsFoldMax_max (max 0 b.h) fs 0

/-- C10: every stage copies an entity before translating it, so each stage
only appends to the entity arena: every entity reference that existed before
a fragment load, a fragment placement or the final normalization still holds
exactly the same entity afterwards; in particular normalizing does not mutate
any entity recorded in the pre-normalization placement list. -/
theorem C10_store_frame (st : Store) (idxs : List ℕ) (ps : List (ℕ × ℚ × ℚ))
    (dx dy ofx ofy : ℚ) (k : ℕ) (hk : k < st.length) :
    (loadFragmentStore st idxs).1.getD k default = st.getD k default ∧
    (placeFragmentStore dx dy st idxs).1.getD k default = st.getD k default ∧
    (normalizeStoreLoop ofx ofy st ps).1.getD k default = st.getD k default := by
  obtain ⟨e1, h1⟩ := loadFragmentStore_extends idxs st
  obtain ⟨e2, h2⟩ := placeFragmentStore_extends dx dy idxs st
  obtain ⟨e3, h3⟩ := normalizeStoreLoop_extends ofx ofy ps st
  rw [h1, h2, h3]
  exact ⟨List.getD_append st e1 default k hk, List.getD_append st e2 default k hk,
    List.getD_append st e3 default k hk⟩

/-- C10 witness: a one-entity store is untouched at index 0 by a
normalization pass over a record pointing at it. -/
theorem C10_store_frame_witness :
    0 < ([demoEnt] : Store).length ∧
    (normalizeStoreLoop 1 2 [demoEnt] [(0, 3, 4)]).1.getD 0 default =
      ([demoEnt] : Store).getD 0 default :=
  ⟨by simp, (C10_store_frame [demoEnt] [0] [(0, 3, 4)] 5 6 1 2 0 (by simp)).2.2⟩

/-- Translating every entity of a modelspace with a strictly non-degenerate
union shifts the computed bounding box. -/
theorem calcular_bbox_shift (es : List Ent) (b : Box)
    (hu : bboxUnion es = some b) (h1 : b.minx < b.maxx) (h2 : b.miny < b.maxy)
    (dx dy : ℚ) :
    calcular_bbox_dxf (es.map fun e => e.translate dx dy) = b.shift dx dy := by
  have hu' : bboxUnion (es.map fun e => e.translate dx dy) = some (b.shift dx dy) := by
    rw [bboxUnion_shift, hu]
    rfl
  rcases calcular_bbox_dxf_cases (es.map fun e => e.translate dx dy) with
    ⟨hn, _⟩ | ⟨b', hb', hd, _⟩ | ⟨b', hb', _, _, hz⟩
  · rw [hu'] at hn; cases hn
  · rw [hu'] at hb'
    injection hb' with hb'
    subst hb'
    exfalso
    simp only [Box.shift] at hd
    rcases hd with hd | hd <;> linarith
  · rw [hu'] at hb'
    injection hb' with hb'
    subst hb'
    exact hz

/-- C3 amended: on the non-defect path (at least one placement and a
non-degenerate final bounding box), every placed entity and its recorded
`(x, y)` pair are translated by `(-finalMinX, -finalMinY)` and the returned
width and height are `finalMaxX - finalMinX` and `finalMaxY - finalMinY`;
the minimum of the resulting layout's geometry is then exactly `(0, 0)` (its
recomputed bounding box is `(0, 0, width, height)`).  The recorded `(x, y)`
pairs, which hold translation offsets or insert points rather than geometry
minima, need not reach 0 (see the counterexample). -/
theorem C3_normalization_amended (plano barra : Option Frag) (rows : List ColorGroup)
    (hne : layoutPlacements plano barra rows ≠ [])
    (hnd : ¬ ((layoutBBox plano barra rows).minx = (layoutBBox plano barra rows).maxx ∧
              (layoutBBox plano barra rows).miny = (layoutBBox plano barra rows).maxy)) :
    generate_single_plan_layout_data plano barra rows =
      ((layoutPlacements plano barra rows).map fun p =>
          (p.1.translate (-(layoutBBox plano barra rows).minx)
            (-(layoutBBox plano barra rows).miny),
           p.2.1 + -(layoutBBox plano barra rows).minx,
           p.2.2 + -(layoutBBox plano barra rows).miny),
       (layoutBBox plano barra rows).maxx - (layoutBBox plano barra rows).minx,
       (layoutBBox plano barra rows).maxy - (layoutBBox plano barra rows).miny) ∧
    calcular_bbox_dxf
        ((generate_single_plan_layout_data plano barra rows).1.map Prod.fst) =
      ⟨0, 0, (layoutBBox plano barra rows).maxx - (layoutBBox plano barra rows).minx,
        (layoutBBox plano barra rows).maxy - (layoutBBox plano barra rows).miny⟩ := by
  simp only [layoutBBox] at hnd ⊢
  have hgen : generate_single_plan_layout_data plano barra rows =
      ((layoutPlacements plano barra rows).map fun p =>
          (p.1.translate
            (-(calcular_bbox_dxf ((layoutPlacements plano barra rows).map Prod.fst)).minx)
            (-(calcular_bbox_dxf ((layoutPlacements plano barra rows).map Prod.fst)).miny),
           p.2.1 + -(calcular_bbox_dxf ((layoutPlacements plano barra rows).map Prod.fst)).minx,
           p.2.2 + -(calcular_bbox_dxf ((layoutPlacements plano barra rows).map Prod.fst)).miny),
       (calcular_bbox_dxf ((layoutPlacements plano barra rows).map Prod.fst)).maxx -
         (calcular_bbox_dxf ((layoutPlacements plano barra rows).map Prod.fst)).minx,
       (calcular_bbox_dxf ((layoutPlacements plano barra rows).map Prod.fst)).maxy -
         (calcular_bbox_dxf ((layoutPlacements plano barra rows).map Prod.fst)).miny) := by
    simp only [generate_single_plan_layout_data]
    rw [if_neg hne, if_neg hnd]
  refine ⟨hgen, ?_⟩
  rcases calcular_bbox_dxf_cases ((layoutPlacements plano barra rows).map Prod.fst) with
    ⟨_, hz⟩ | ⟨b, _, _, hz⟩ | ⟨b, hu, h1, h2, hz⟩
  · exact absurd (by rw [hz]; exact ⟨rfl, rfl⟩) hnd
  · exact absurd (by rw [hz]; exact ⟨rfl, rfl⟩) hnd
  · rw [hgen]
    have hmm : (((layoutPlacements plano barra rows).map fun p =>
        (p.1.translate
          (-(calcular_bbox_dxf ((layoutPlacements plano barra rows).map Prod.fst)).minx)
          (-(calcular_bbox_dxf ((layoutPlacements plano barra rows).map Prod.fst)).miny),
         p.2.1 + -(calcular_bbox_dxf ((layoutPlacements plano barra rows).map Prod.fst)).minx,
         p.2.2 + -(calcular_bbox_dxf ((layoutPlacements plano barra rows).map Prod.fst)).miny)).map
            Prod.fst) =
      ((layoutPlacements plano barra rows).map Prod.fst).map fun e =>
        e.translate
          (-(calcular_bbox_dxf ((layoutPlacements plano barra rows).map Prod.fst)).minx)
          (-(calcular_bbox_dxf ((layoutPlacements plano barra rows).map Prod.fst)).miny) := by
      simp only [List.map_map]
      rfl
    rw [hmm, calcular_bbox_shift ((layoutPlacements plano barra rows).map Prod.fst) b hu h1 h2]
    simp only [hz, Box.shift, Box.mk.injEq]
    refine ⟨by ring, by ring, by ring, by ring⟩

/-- C3 witness: the one-item layout with real geometry takes the non-defect
path and its normalized geometry has its lower-left corner at `(0, 0)`. -/
theorem C3_normalization_amended_witness :
    (layoutPlacements none none demoRowsGeo ≠ []) ∧
    (¬ ((layoutBBox none none demoRowsGeo).minx = (layoutBBox none none demoRowsGeo).maxx ∧
        (layoutBBox none none demoRowsGeo).miny = (layoutBBox none none demoRowsGeo).maxy)) ∧
    calcular_bbox_dxf
        ((generate_single_plan_layout_data none none demoRowsGeo).1.map Prod.fst) =
      ⟨0, 0, (layoutBBox none none demoRowsGeo).maxx - (layoutBBox none none demoRowsGeo).minx,
        (layoutBBox none none demoRowsGeo).maxy - (layoutBBox none none demoRowsGeo).miny⟩ := by
  have hval : layoutPlacements none none demoRowsGeo =
      [(⟨false, 45, -55, some ⟨50, -50, 55, -45⟩⟩, 45, -55)] := by
    norm_num [layoutPlacements, placeRows, estimated_layout_height, rowMaxHeight,
      fmtsFoldMax, sizesFoldMax, holesFoldMax, itemsFoldMax, placeFormats,
      placeFormatsRest, placeSizes, placeSizesRest, placeHoles, placeHolesRest,
      placeHoleGroup, sortBySku, List.insertionSort, List.orderedInsert, placeItems,
      placeItemsRest, placeItemAt, placeEnts, recordPlacement, Ent.translate,
      Box.shift, demoRowsGeo, demoItemGeo, MARGEM_ESQUERDA, MARGEM_INFERIOR,
      ESPACAMENTO_LINHA_COR]
  have hne : layoutPlacements none none demoRowsGeo ≠ [] := by
    rw [hval]; exact List.cons_ne_nil _ _
  have hbb : layoutBBox none none demoRowsGeo = ⟨50, -50, 55, -45⟩ := by
    rw [layoutBBox, hval]
    norm_num [calcular_bbox_dxf, bboxUnion, entityStep, extendPoint]
  have hnd : ¬ ((layoutBBox none none demoRowsGeo).minx = (layoutBBox none none demoRowsGeo).maxx ∧
      (layoutBBox none none demoRowsGeo).miny = (layoutBBox none none demoRowsGeo).maxy) := by
    rw [hbb]
    norm_num
  exact ⟨hne, hnd, (C3_normalization_amended none none demoRowsGeo hne hnd).2⟩

/-- C3 counterexample: after normalization the recorded placement coordinates
of the one-item layout are `(-5, -5)`, so the minimum recorded x (and y) is
`-5`, not `0` — the recorded pairs hold translation offsets, not the geometry
minima that normalization drives to zero. -/
theorem C3_normalization_counterexample :
    generate_single_plan_layout_data none none demoRowsGeo =
      ([(⟨false, -5, -5, some ⟨0, 0, 5, 5⟩⟩, -5, -5)], 5, 5) ∧
    ((-5 : ℚ) ≠ 0) := by
  constructor
  · norm_num [generate_single_plan_layout_data, layoutPlacements, placeRows,
      estimated_layout_height, rowMaxHeight, fmtsFoldMax, sizesFoldMax, holesFoldMax,
      itemsFoldMax, placeFormats, placeFormatsRest, placeSizes, placeSizesRest,
      placeHoles, placeHolesRest, placeHoleGroup, sortBySku, List.insertionSort,
      List.orderedInsert, placeItems, placeItemsRest, placeItemAt, placeEnts,
      recordPlacement, Ent.translate, Box.shift, demoRowsGeo, demoItemGeo,
      calcular_bbox_dxf, bboxUnion, entityStep, extendPoint, MARGEM_ESQUERDA,
      MARGEM_INFERIOR, ESPACAMENTO_LINHA_COR]
  · norm_num

/-- C7 amended: two items sharing color `DOU`, format, size and hole type
`2FH`, both carrying the 129.0 x 225.998 fallback (their own geometry being
empty, which is what makes the fallback fire), are placed in the same color
row with x positions 50 and 279 — differing by exactly the item width 129
plus the same-group spacing 100; but because their geometry is empty the
final bounding box is degenerate, the engine takes the defect path, skips
normalization and returns the un-normalized placements: the recorded row
baseline is `-50` (minus the bottom margin), not `0`, and the returned
dimensions are the fixed defect width 200 and the estimated height
225.998. -/
theorem C7_scenario_amended (s1 s2 : List Char) (e1 e2 : Ent)
    (hs : s1 ≤ s2) (hb1 : e1.box = none) (hb2 : e2.box = none)
    (hi1 : e1.hasInsert = false) (hi2 : e2.hasInsert = false) :
    generate_single_plan_layout_data none none (demoRowsScenarioB s1 s2 e1 e2) =
      ([(e1.translate 50 (-50), 50, -50), (e2.translate 279 (-50), 279, -50)],
       200, ITEM_DXF_FIXED_HEIGHT_MM) ∧
    (279 - 50 : ℚ) = ITEM_DXF_FIXED_WIDTH_MM + ESPACAMENTO_DXF_MESMO_FURO ∧
    (-50 : ℚ) = -MARGEM_INFERIOR := by
  refine ⟨?_, by norm_num [ITEM_DXF_FIXED_WIDTH_MM, ESPACAMENTO_DXF_MESMO_FURO],
    by norm_num [MARGEM_INFERIOR]⟩
  have hsort : sortBySku [fallbackItem s1 e1, fallbackItem s2 e2] =
      [fallbackItem s1 e1, fallbackItem s2 e2] := by
    simp [sortBySku, List.insertionSort, List.orderedInsert, fallbackItem, hs]
  simp only [demoRowsScenarioB, generate_single_plan_layout_data, layoutPlacements,
    placeRows, placeFormats, placeFormatsRest, placeSizes, placeSizesRest,
    placeHoles, placeHolesRest, placeHoleGroup]
  rw [hsort]
  norm_num [estimated_layout_height, rowMaxHeight, fmtsFoldMax, sizesFoldMax,
    holesFoldMax, itemsFoldMax, placeItems, placeItemsRest, placeItemAt, placeEnts,
    recordPlacement, Ent.translate, Box.shift, fallbackItem, hb1, hb2, hi1, hi2,
    calcular_bbox_dxf, bboxUnion, entityStep, extendPoint, MARGEM_ESQUERDA,
    MARGEM_INFERIOR, ESPACAMENTO_LINHA_COR, ESPACAMENTO_DXF_MESMO_FURO,
    ITEM_DXF_FIXED_WIDTH_MM, ITEM_DXF_FIXED_HEIGHT_MM]
  intro h
  exact absurd h (List.cons_ne_nil _ _)

/-- C7 witness: the amended scenario evaluated at two concrete SKUs. -/
theorem C7_scenario_amended_witness :
    (['a'] : List Char) ≤ ['b'] ∧
    generate_single_plan_layout_data none none
        (demoRowsScenarioB ['a'] ['b'] demoEnt demoEnt) =
      ([(demoEnt.translate 50 (-50), 50, -50), (demoEnt.translate 279 (-50), 279, -50)],
       200, ITEM_DXF_FIXED_HEIGHT_MM) :=
  ⟨by decide,
    (C7_scenario_amended (['a']) (['b']) demoEnt demoEnt (by decide) rfl rfl rfl rfl).1⟩

/-- C7 counterexample: on the two-fallback-item scenario the recorded y
coordinates are `-50` and `-50`, not the row baseline `0` after normalization
claimed by the specification (the x positions 50 and 279 do differ by
129 + 100 as claimed). -/
theorem C7_scenario_counterexample :
    ((generate_single_plan_layout_data none none
        (demoRowsScenarioB (['a']) (['b']) demoEnt demoEnt)).1.map fun p => p.2.2) =
      [-50, -50] ∧
    ((generate_single_plan_layout_data none none
        (demoRowsScenarioB (['a']) (['b']) demoEnt demoEnt)).1.map fun p => p.2.1) =
      [50, 279] ∧
    ((-50 : ℚ) ≠ 0) := by
  have hsort : sortBySku [fallbackItem (['a']) demoEnt, fallbackItem (['b']) demoEnt] =
      [fallbackItem (['a']) demoEnt, fallbackItem (['b']) demoEnt] := by
    simp only [sortBySku, List.insertionSort, List.orderedInsert, fallbackItem]
    rw [if_pos (by decide : (['a'] : List Char) ≤ ['b'])]
  have hval : generate_single_plan_layout_data none none
      (demoRowsScenarioB (['a']) (['b']) demoEnt demoEnt) =
      ([(demoEnt.translate 50 (-50), 50, -50), (demoEnt.translate 279 (-50), 279, -50)],
       200, ITEM_DXF_FIXED_HEIGHT_MM) := by
    simp only [demoRowsScenarioB, generate_single_plan_layout_data, layoutPlacements,
      placeRows, placeFormats, placeFormatsRest, placeSizes, placeSizesRest,
      placeHoles, placeHolesRest, placeHoleGroup]
    rw [hsort]
    norm_num [estimated_layout_height, rowMaxHeight, fmtsFoldMax, sizesFoldMax,
      holesFoldMax, itemsFoldMax, placeItems, placeItemsRest, placeItemAt, placeEnts,
      recordPlacement, Ent.translate, Box.shift, fallbackItem, demoEnt,
      calcular_bbox_dxf, bboxUnion, entityStep, extendPoint, MARGEM_ESQUERDA,
      MARGEM_INFERIOR, ESPACAMENTO_LINHA_COR, ESPACAMENTO_DXF_MESMO_FURO,
      ITEM_DXF_FIXED_WIDTH_MM, ITEM_DXF_FIXED_HEIGHT_MM]
    intro h
    exact absurd h (List.cons_ne_nil _ _)
  rw [hval]
  norm_num [demoEnt, Ent.translate]

/-- C9: the composition endpoint processes plans in ascending plan-name
order; each placed (non-empty) plan's global base offset equals the
accumulated sum, over the previously placed plans, of layout height plus the
positive inter-plan spacing; consequently any two distinct placed plans'
vertical extents `[base, base + height]` are strictly disjoint; and each
placed plan's entities are its layout entities translated vertically by its
base offset. -/
theorem C9_compose_spec (plans : List PlanOut)
    (hh : ∀ p ∈ plans, 0 ≤ p.layout_height) :
    List.Sorted (fun a b : List Char => a ≤ b)
      ((compor_plano plans).map PlacedPlan.plan_name) ∧
    (∀ i, (hi : i < (compor_plano plans).length) →
      ((compor_plano plans)[i]).base_y =
        (((compor_plano plans).take i).map fun q => q.h + ESPACAMENTO_LINHA_COR).sum) ∧
    List.Pairwise (fun a b => a.base_y + a.h < b.base_y) (compor_plano plans) ∧
    (∀ q ∈ compor_plano plans, ∃ p ∈ plans, q.plan_name = p.plan_name ∧
      q.h = p.layout_height ∧
      q.msp_ents = p.ents.map fun e => e.1.translate 0 q.base_y) := by
  have hperm := List.perm_insertionSort (fun a b : PlanOut => a.plan_name ≤ b.plan_name) plans
  have hh' : ∀ p ∈ List.insertionSort (fun a b : PlanOut => a.plan_name ≤ b.plan_name) plans,
      0 ≤ p.layout_height := fun p hp => hh p (hperm.mem_iff.mp hp)
  refine ⟨?_, ?_, ?_, ?_⟩
  · haveI : IsTotal PlanOut (fun a b => a.plan_name ≤ b.plan_name) :=
      ⟨fun a b => le_total a.plan_name b.plan_name⟩
    haveI : IsTrans PlanOut (fun a b => a.plan_name ≤ b.plan_name) :=
      ⟨fun a b c hab hbc => le_trans hab hbc⟩
    have hsort := List.sorted_insertionSort
      (fun a b : PlanOut => a.plan_name ≤ b.plan_name) plans
    have hnames : List.Pairwise (fun a b : List Char => a ≤ b)
        ((List.insertionSort (fun a b : PlanOut => a.plan_name ≤ b.plan_name) plans).map
          PlanOut.plan_name) := List.pairwise_map.mpr hsort
    exact List.Pairwise.sublist
      (composeLoop_names_sublist
        (List.insertionSort (fun a b : PlanOut => a.plan_name ≤ b.plan_name) plans) 0)
      hnames
  · intro i hi
    have := composeLoop_base_eq
      (List.insertionSort (fun a b : PlanOut => a.plan_name ≤ b.plan_name) plans) 0 i
      (by simpa [compor_plano] using hi)
    simpa [compor_plano] using this
  · have := composeLoop_pairwise
      (List.insertionSort (fun a b : PlanOut => a.plan_name ≤ b.plan_name) plans) hh' 0
    simpa [compor_plano] using this
  · intro q hq
    obtain ⟨p, hp, h1, h2, h3, _⟩ := composeLoop_origin
      (List.insertionSort (fun a b : PlanOut => a.plan_name ≤ b.plan_name) plans) 0 q
      (by simpa [compor_plano] using hq)
    exact ⟨p, hperm.mem_iff.mp hp, h1, h2, h3⟩

/-- C9 witness: a singleton plan list satisfies the height hypothesis and is
placed sorted. -/
theorem C9_compose_spec_witness :
    (∀ p ∈ [demoPlanOut], 0 ≤ p.layout_height) ∧
    List.Sorted (fun a b : List Char => a ≤ b)
      ((compor_plano [demoPlanOut]).map PlacedPlan.plan_name) := by
  have hh : ∀ p ∈ [demoPlanOut], 0 ≤ p.layout_height := by
    intro p hp
    rw [List.mem_singleton] at hp
    subst hp
    norm_num [demoPlanOut]
  exact ⟨hh, (C9_compose_spec [demoPlanOut] hh).1⟩

/-- C4 witness: a well-formed 7-field SKU is accepted with its four fields. -/
theorem C4_parse_sku_spec_witness :
    accepted_sku_fields (['a','-','b','-','c','-','d','-','e','-','f','-','g']) =
      some (['a'], ['b'], ['c'], ['e']) :=
  (C4_parse_sku_spec (['a','-','b','-','c','-','d','-','e','-','f','-','g'])
      (['a']) (['b']) (['c']) (['e'])).2.mpr
    ⟨⟨['d'], ['f'], ['g'], by decide⟩, by decide, by decide, by decide, by decide⟩

/-- C5 witness: the empty modelspace yields the all-zero box. -/
theorem C5_calcular_bbox_spec_witness :
    calcular_bbox_dxf ([] : List Ent) = ⟨0, 0, 0, 0⟩ :=
  (C5_calcular_bbox_spec []).1.mpr (Or.inl rfl)

/-- C2 witness: the amended row-height rule evaluated on the demo row. -/
theorem C2_rowheight_amended_witness :
    rowMaxHeight (some demoBarra) demoRowSingle =
      max (max 0 demoBarra.h) (rowMaxHeight none demoRowSingle) :=
  C2_rowheight_amended demoBarra demoRowSingle

/-- C8 witness: the amended response shape evaluated at a concrete URL. -/
theorem C8_response_amended_witness :
    ((compose_success_response ("x")).map Prod.fst = ["message", "dxf_url"]) ∧
    (("dxf_url" : String), ("x" : String)) ∈ compose_success_response ("x") :=
  C8_response_amended ("x")

end Plano
